import Mathlib

/-!
Verification of the MyTransporter transport-request / bid-resolution core.

Shallow embedding of the server code:
  * data model from `shared/schema.ts` (tables `users`, `transport_requests`,
    `bids`, `gps_tracking`); varchar columns are `String`, nullable columns
    are `Option`, decimal columns are the decimal strings the code stores
    (the routes call `.toString()` before insertion), timestamps are `Nat`;
  * the storage layer from `server/storage.ts` (class `DatabaseStorage`);
    the database is a `DB` record of row lists, SQL `UPDATE ... WHERE` is a
    `map` over the rows, `ORDER BY col DESC` is modelled by a sort
    (`List.insertionSort` on a descending key relation);
  * the route handlers from `server/routes.ts` (session-auth variant): each
    handler is a function of the authenticated `User` (injected by the
    `isAuthenticated` middleware), the request arguments and the database,
    returning `Except ApiError ...`; the HTTP error responses are mapped to
    the spec's error taxonomy (403 → forbidden, 404 → notFound, the 400 for
    an illegal reassign → invalidTransition, the 400 for an unknown status
    string → validation).
-/

namespace MyTransporter

/-- Row of `users` (schema.ts `users` table). -/
structure User where
  id : Nat
  email : String
  password : String
  firstName : Option String
  lastName : Option String
  role : String
  createdAt : Nat
  updatedAt : Nat
deriving Repr, DecidableEq

/-- Row of `transport_requests` (schema.ts `transportRequests` table). -/
structure TransportRequest where
  id : Nat
  clientId : Nat
  pickupLocation : String
  deliveryLocation : String
  pickupDate : Nat
  deliveryDate : Nat
  itemDescription : String
  weight : String
  dimensions : String
  budget : String
  status : String
  assignedDriverId : Option Nat
  createdAt : Nat
  updatedAt : Nat
deriving Repr, DecidableEq

/-- Row of `bids` (schema.ts `bids` table). -/
structure Bid where
  id : Nat
  requestId : Nat
  driverId : Nat
  amount : String
  message : Option String
  estimatedDelivery : Nat
  status : String
  createdAt : Nat
  updatedAt : Nat
deriving Repr, DecidableEq

/-- Row of `gps_tracking`.  The table definition itself is not among the
source files (only the storage code that queries it is); the columns are
taken from that code's usage (`requestId`, `timestamp`) and the data-model
description in the spec (§3) for the rest. -/
structure GpsTracking where
  id : Nat
  requestId : Nat
  driverId : Nat
  latitude : String
  longitude : String
  speed : Option String
  heading : Option String
  accuracy : Option String
  batteryLevel : Option String
  status : String
  timestamp : Nat
deriving Repr, DecidableEq

/-- The relational store: one list of rows per table. -/
structure DB where
  requests : List TransportRequest
  bids : List Bid
  gps : List GpsTracking
deriving Repr, DecidableEq

def DB.empty : DB := ⟨[], [], []⟩

/-- The spec's error taxonomy (§7), as surfaced by the route handlers. -/
inductive ApiError where
  | forbidden
  | notFound
  | invalidTransition
  | validation
deriving Repr, DecidableEq

/-- Descending order on a `Nat` key: models SQL `ORDER BY key DESC`. -/
def byDescKey {α : Type} (key : α → Nat) : α → α → Prop :=
  fun a b => key b ≤ key a

instance {α : Type} (key : α → Nat) : DecidableRel (byDescKey key) :=
  fun _ _ => Nat.decLe _ _

instance {α : Type} (key : α → Nat) : IsTotal α (byDescKey key) :=
  ⟨fun a b => Nat.le_total (key b) (key a)⟩

instance {α : Type} (key : α → Nat) : IsTrans α (byDescKey key) :=
  ⟨fun _ _ _ hab hbc => Nat.le_trans hbc hab⟩

/-- `ORDER BY key DESC` over a row list. -/
def sortByDesc {α : Type} (key : α → Nat) (l : List α) : List α :=
  List.insertionSort (byDescKey key) l

/-- Fresh serial id for an insert: one more than the largest id in use. -/
def freshId (ids : List Nat) : Nat := ids.foldr max 0 + 1

end MyTransporter

namespace MyTransporter

/-! ### Storage layer (`server/storage.ts`, class `DatabaseStorage`) -/

/-- `getTransportRequestById`: `SELECT ... WHERE id = ?`, first row or none. -/
def getTransportRequestById (db : DB) (id : Nat) : Option TransportRequest :=
  (db.requests.filter (fun r => r.id = id)).head?

/-- `getTransportRequests`: all requests, newest-first by `createdAt`. -/
def getTransportRequests (db : DB) : List TransportRequest :=
  sortByDesc TransportRequest.createdAt db.requests

/-- `getTransportRequestsForClient`. -/
def getTransportRequestsForClient (db : DB) (clientId : Nat) : List TransportRequest :=
  sortByDesc TransportRequest.createdAt (db.requests.filter (fun r => r.clientId = clientId))

/-- Input of `createTransportRequest` after the route's conversions
(`weight`/`budget` already turned into decimal strings). -/
structure NewRequestInput where
  pickupLocation : String
  deliveryLocation : String
  pickupDate : Nat
  deliveryDate : Nat
  itemDescription : String
  weight : String
  dimensions : String
  budget : String
deriving Repr, DecidableEq

/-- `createTransportRequest`: INSERT with the schema defaults
(`status` defaults to "pending", `assigned_driver_id` to NULL,
timestamps to now, `id` to the next serial value). -/
def createTransportRequest (db : DB) (input : NewRequestInput) (clientId : Nat)
    (now : Nat) : DB × TransportRequest :=
  let row : TransportRequest :=
    { id := freshId (db.requests.map TransportRequest.id)
      clientId := clientId
      pickupLocation := input.pickupLocation
      deliveryLocation := input.deliveryLocation
      pickupDate := input.pickupDate
      deliveryDate := input.deliveryDate
      itemDescription := input.itemDescription
      weight := input.weight
      dimensions := input.dimensions
      budget := input.budget
      status := "pending"
      assignedDriverId := none
      createdAt := now
      updatedAt := now }
  ({ db with requests := db.requests ++ [row] }, row)

/-- `updateTransportRequestStatus(id, status, assignedDriverId?)`:
builds `updateData = { status, updatedAt: new Date() }` and adds
`assignedDriverId` only under JavaScript truthiness
(`if (assignedDriverId)`), i.e. only when the argument is present and
nonzero; then `UPDATE ... WHERE id = ?` returning the updated row. -/
def updateTransportRequestStatus (db : DB) (id : Nat) (status : String)
    (assignedDriverId : Option Nat) (now : Nat) : DB × Option TransportRequest :=
  let setDriver : Bool :=
    match assignedDriverId with
    | some d => d != 0
    | none => false
  let upd : TransportRequest → TransportRequest := fun r =>
    if r.id = id then
      { r with
          status := status
          updatedAt := now
          assignedDriverId := if setDriver then assignedDriverId else r.assignedDriverId }
    else r
  let requests := db.requests.map upd
  ({ db with requests := requests }, (requests.filter (fun r => r.id = id)).head?)

/-- `createBid`: INSERT with defaults (`status` "pending", serial id). -/
structure NewBidInput where
  requestId : Nat
  amount : String
  message : Option String
  estimatedDelivery : Nat
deriving Repr, DecidableEq

def createBid (db : DB) (input : NewBidInput) (driverId : Nat) (now : Nat) :
    DB × Bid :=
  let row : Bid :=
    { id := freshId (db.bids.map Bid.id)
      requestId := input.requestId
      driverId := driverId
      amount := input.amount
      message := input.message
      estimatedDelivery := input.estimatedDelivery
      status := "pending"
      createdAt := now
      updatedAt := now }
  ({ db with bids := db.bids ++ [row] }, row)

/-- `getBidsForRequest`: bids of a request, newest-first by `createdAt`. -/
def getBidsForRequest (db : DB) (requestId : Nat) : List Bid :=
  sortByDesc Bid.createdAt (db.bids.filter (fun b => b.requestId = requestId))

/-- `getBidsForDriver`. -/
def getBidsForDriver (db : DB) (driverId : Nat) : List Bid :=
  sortByDesc Bid.createdAt (db.bids.filter (fun b => b.driverId = driverId))

/-- `updateBidStatus(id, status)`: `UPDATE bids SET status, updatedAt WHERE id`.
(The returned row is never used by the routes, so only the store is returned.) -/
def updateBidStatus (db : DB) (id : Nat) (status : String) (now : Nat) : DB :=
  { db with
      bids := db.bids.map (fun b =>
        if b.id = id then { b with status := status, updatedAt := now } else b) }

/-- `reassignTransportRequest`: reset the request to pending with no driver,
then reject every bid for it. -/
def reassignTransportRequest (db : DB) (requestId : Nat) (now : Nat) :
    DB × Option TransportRequest :=
  let requests := db.requests.map (fun r =>
    if r.id = requestId then
      { r with status := "pending", assignedDriverId := none, updatedAt := now }
    else r)
  let bids := db.bids.map (fun b =>
    if b.requestId = requestId then
      { b with status := "rejected", updatedAt := now }
    else b)
  ({ requests := requests, bids := bids, gps := db.gps },
   (requests.filter (fun r => r.id = requestId)).head?)

/-- `getGpsTrackingForRequest`: the request's samples, newest-first by
`timestamp`. -/
def getGpsTrackingForRequest (db : DB) (requestId : Nat) : List GpsTracking :=
  sortByDesc GpsTracking.timestamp (db.gps.filter (fun g => g.requestId = requestId))

/-- `getLatestGpsTrackingForRequest`: same query with `LIMIT 1`. -/
def getLatestGpsTrackingForRequest (db : DB) (requestId : Nat) : Option GpsTracking :=
  ((sortByDesc GpsTracking.timestamp
      (db.gps.filter (fun g => g.requestId = requestId))).take 1).head?

end MyTransporter

namespace MyTransporter

/-! ### Route handlers (`server/routes.ts`, session-auth variant)

Each handler takes the authenticated `User` injected by the
`isAuthenticated` middleware.  `parseInt` of path/body parameters is part
of the HTTP boundary, so ids arrive here as `Nat`. -/

/-- A `TransportRequest` as serialized to a viewer: the driver branches
return `{ ...request, budget: undefined }`, so the view's budget is
optional. -/
structure TransportRequestView where
  id : Nat
  clientId : Nat
  pickupLocation : String
  deliveryLocation : String
  pickupDate : Nat
  deliveryDate : Nat
  itemDescription : String
  weight : String
  dimensions : String
  budget : Option String
  status : String
  assignedDriverId : Option Nat
  createdAt : Nat
  updatedAt : Nat
deriving Repr, DecidableEq

/-- The untouched serialization of a request (budget included). -/
def toView (r : TransportRequest) : TransportRequestView :=
  { id := r.id, clientId := r.clientId, pickupLocation := r.pickupLocation
    deliveryLocation := r.deliveryLocation, pickupDate := r.pickupDate
    deliveryDate := r.deliveryDate, itemDescription := r.itemDescription
    weight := r.weight, dimensions := r.dimensions, budget := some r.budget
    status := r.status, assignedDriverId := r.assignedDriverId
    createdAt := r.createdAt, updatedAt := r.updatedAt }

/-- `{ ...req, budget: undefined }`: the driver-facing serialization. -/
def driverView (r : TransportRequest) : TransportRequestView :=
  { toView r with budget := none }

/-- `POST /api/transport-requests`: clients only; inserts with
status "pending" and the caller as owner. -/
def createRequestRoute (db : DB) (user : User) (input : NewRequestInput)
    (now : Nat) : Except ApiError (DB × TransportRequest) :=
  if user.role ≠ "client" then .error .forbidden
  else .ok (createTransportRequest db input user.id now)

/-- `GET /api/transport-requests`: clients see their own rows; drivers see
only pending rows with the budget removed; admins see everything. -/
def listRequestsRoute (db : DB) (user : User) :
    Except ApiError (List TransportRequestView) :=
  if user.role = "client" then
    .ok ((getTransportRequestsForClient db user.id).map toView)
  else if user.role = "driver" then
    .ok (((getTransportRequests db).filter (fun r => r.status = "pending")).map driverView)
  else if user.role = "admin" then
    .ok ((getTransportRequests db).map toView)
  else .error .forbidden

/-- `GET /api/transport-requests/:id`: 404 when missing; clients may read
only their own request; drivers get the budget-stripped view. -/
def getRequestRoute (db : DB) (user : User) (requestId : Nat) :
    Except ApiError TransportRequestView :=
  match getTransportRequestById db requestId with
  | none => .error .notFound
  | some r =>
    if user.role = "client" ∧ r.clientId ≠ user.id then .error .forbidden
    else if user.role = "driver" then .ok (driverView r)
    else .ok (toView r)

/-- One iteration of the assign route's bid-cascade loop. -/
def assignBidStep (driverId now : Nat) (acc : DB) (b : Bid) : DB :=
  if b.driverId = driverId then updateBidStatus acc b.id "accepted" now
  else updateBidStatus acc b.id "rejected" now

/-- `PATCH /api/transport-requests/:id/assign` (the admin accept-bid
action): admins only; sets the request to "assigned" with the driver,
then walks the request's bids accepting the chosen driver's bids and
rejecting the others. -/
def assignDriverRoute (db : DB) (user : User) (requestId driverId : Nat)
    (now : Nat) : Except ApiError (DB × Option TransportRequest) :=
  if user.role ≠ "admin" then .error .forbidden
  else
    let p := updateTransportRequestStatus db requestId "assigned" (some driverId) now
    let snapshot := getBidsForRequest p.1 requestId
    .ok (snapshot.foldl (assignBidStep driverId now) p.1, p.2)

/-- `POST /api/bids`: drivers only; inserts the bid with the caller as
driver.  The target request's status (or existence) is never checked. -/
def submitBidRoute (db : DB) (user : User) (input : NewBidInput)
    (now : Nat) : Except ApiError (DB × Bid) :=
  if user.role ≠ "driver" then .error .forbidden
  else .ok (createBid db input user.id now)

/-- The route's `validStatuses` list. -/
def validStatuses : List String :=
  ["pending", "assigned", "in_progress", "completed", "cancelled"]

/-- `PATCH /api/transport-requests/:id/status`: admins only; rejects a
status string outside `validStatuses`; 404 when the request is missing;
otherwise applies the status unconditionally (no transition check). -/
def updateStatusRoute (db : DB) (user : User) (requestId : Nat)
    (status : String) (now : Nat) :
    Except ApiError (DB × Option TransportRequest) :=
  if user.role ≠ "admin" then .error .forbidden
  else if status ∉ validStatuses then .error .validation
  else
    match getTransportRequestById db requestId with
    | none => .error .notFound
    | some _ => .ok (updateTransportRequestStatus db requestId status none now)

/-- `PATCH /api/transport-requests/:id/reassign`: admins only; 404 when
missing; only legal from "assigned" or "in_progress"; then resets the
request and rejects all its bids. -/
def reassignRoute (db : DB) (user : User) (requestId : Nat) (now : Nat) :
    Except ApiError (DB × Option TransportRequest) :=
  if user.role ≠ "admin" then .error .forbidden
  else
    match getTransportRequestById db requestId with
    | none => .error .notFound
    | some r =>
      if r.status ≠ "assigned" ∧ r.status ≠ "in_progress" then
        .error .invalidTransition
      else .ok (reassignTransportRequest db requestId now)

end MyTransporter

namespace MyTransporter

/-! ### Characterization of the assign route's bid cascade

The loop fetches the bid snapshot once and then issues one
`updateBidStatus` (an UPDATE keyed on the bid's primary key) per snapshot
entry.  Because primary keys are unique, the net effect is a single
pointwise update of the bid table. -/

/-- Effect of the snapshot entry `b` on an arbitrary stored bid `x`. -/
def applyBid (d now : Nat) (x b : Bid) : Bid :=
  if x.id = b.id then
    { x with status := if b.driverId = d then "accepted" else "rejected"
             updatedAt := now }
  else x

theorem assignBidStep_eq (d now : Nat) (acc : DB) (b : Bid) :
    assignBidStep d now acc b
      = { acc with bids := acc.bids.map (fun x => applyBid d now x b) } := by
  unfold assignBidStep updateBidStatus applyBid
  by_cases hb : b.driverId = d <;> simp [hb]

theorem foldl_assignBidStep_bids (d now : Nat) (L : List Bid) (db : DB) :
    (L.foldl (assignBidStep d now) db)
      = { db with bids := db.bids.map (fun x => L.foldl (applyBid d now) x) } := by
  induction L generalizing db with
  | nil => simp
  | cons b L ih =>
    rw [List.foldl_cons, ih, assignBidStep_eq]
    simp [List.map_map, Function.comp]

theorem applyBid_id (d now : Nat) (x b : Bid) : (applyBid d now x b).id = x.id := by
  unfold applyBid
  by_cases h : x.id = b.id <;> simp [h]

theorem foldl_applyBid_id (d now : Nat) (L : List Bid) (x : Bid) :
    (L.foldl (applyBid d now) x).id = x.id := by
  induction L generalizing x with
  | nil => rfl
  | cons b L ih => rw [List.foldl_cons, ih, applyBid_id]

theorem foldl_applyBid_of_not_mem (d now : Nat) (L : List Bid) (x : Bid)
    (h : x.id ∉ L.map Bid.id) : L.foldl (applyBid d now) x = x := by
  induction L with
  | nil => rfl
  | cons b L ih =>
    simp only [List.map_cons, List.mem_cons, not_or] at h
    rw [List.foldl_cons]
    have hx : applyBid d now x b = x := by
      unfold applyBid
      simp [h.1]
    rw [hx]
    exact ih h.2

theorem foldl_applyBid_of_mem (d now : Nat) (L : List Bid) (x b₀ : Bid)
    (hnd : (L.map Bid.id).Nodup) (hb₀ : b₀ ∈ L) (hid : x.id = b₀.id) :
    L.foldl (applyBid d now) x
      = { x with status := if b₀.driverId = d then "accepted" else "rejected"
                 updatedAt := now } := by
  induction L generalizing x with
  | nil => cases hb₀
  | cons b L ih =>
    simp only [List.map_cons, List.nodup_cons] at hnd
    rw [List.foldl_cons]
    rcases List.mem_cons.mp hb₀ with hb | hb
    · subst hb
      have hx : applyBid d now x b₀
          = { x with status := if b₀.driverId = d then "accepted" else "rejected"
                     updatedAt := now } := by
        unfold applyBid
        simp [hid]
      rw [hx]
      apply foldl_applyBid_of_not_mem
      simpa [hid] using hnd.1
    · have hne : x.id ≠ b.id := by
        intro hxb
        exact hnd.1 (hxb ▸ hid ▸ List.mem_map_of_mem Bid.id hb)
      have hx : applyBid d now x b = x := by
        unfold applyBid
        simp [hne]
      rw [hx]
      exact ih x hnd.2 hb hid

theorem mem_getBidsForRequest {db : DB} {rid : Nat} {b : Bid} :
    b ∈ getBidsForRequest db rid ↔ b ∈ db.bids ∧ b.requestId = rid := by
  unfold getBidsForRequest sortByDesc
  rw [(List.perm_insertionSort (byDescKey Bid.createdAt) _).mem_iff, List.mem_filter]
  simp

theorem nodup_ids_getBidsForRequest {db : DB} {rid : Nat}
    (h : (db.bids.map Bid.id).Nodup) :
    ((getBidsForRequest db rid).map Bid.id).Nodup := by
  unfold getBidsForRequest sortByDesc
  refine ((List.perm_insertionSort (byDescKey Bid.createdAt) _).map Bid.id).symm.nodup ?_
  exact ((List.filter_sublist db.bids).map Bid.id).nodup h

/-- The net effect of the assign route's bid loop on the bid table. -/
theorem assignCascade_bids_eq (d now rid : Nat) (db : DB)
    (hnd : (db.bids.map Bid.id).Nodup) :
    ((getBidsForRequest db rid).foldl (assignBidStep d now) db).bids
      = db.bids.map (fun x =>
          if x.requestId = rid then
            { x with status := if x.driverId = d then "accepted" else "rejected"
                     updatedAt := now }
          else x) := by
  rw [foldl_assignBidStep_bids]
  apply List.map_congr_left
  intro x hx
  by_cases hreq : x.requestId = rid
  · have hmem : x ∈ getBidsForRequest db rid :=
      mem_getBidsForRequest.mpr ⟨hx, hreq⟩
    rw [foldl_applyBid_of_mem d now _ x x (nodup_ids_getBidsForRequest hnd) hmem rfl]
    simp [hreq]
  · rw [foldl_applyBid_of_not_mem]
    · simp [hreq]
    · intro hmem
      rcases List.mem_map.mp hmem with ⟨y, hyL, hyid⟩
      rcases mem_getBidsForRequest.mp hyL with ⟨hybids, hyreq⟩
      have : y = x := List.inj_on_of_nodup_map hnd hybids hx hyid
      exact hreq (this ▸ hyreq)

end MyTransporter

namespace MyTransporter

/-! ### Closed-form results of the mutating routes -/

/-- Net effect of a successful assign (accept-bid) on the store. -/
def assignResultDb (db : DB) (r d now : Nat) : DB :=
  { requests := db.requests.map (fun row =>
      if row.id = r then
        { row with status := "assigned", updatedAt := now
                   assignedDriverId := some d }
      else row)
    bids := db.bids.map (fun x =>
      if x.requestId = r then
        { x with status := if x.driverId = d then "accepted" else "rejected"
                 updatedAt := now }
      else x)
    gps := db.gps }

theorem assignDriverRoute_eq (db : DB) (admin : User) (r d now : Nat)
    (hadmin : admin.role = "admin") (hd : d ≠ 0)
    (hids : (db.bids.map Bid.id).Nodup) :
    assignDriverRoute db admin r d now
      = .ok (assignResultDb db r d now,
             ((assignResultDb db r d now).requests.filter
               (fun row => row.id = r)).head?) := by
  have hne : (d != 0) = true := bne_iff_ne.mpr hd
  have hupd : updateTransportRequestStatus db r "assigned" (some d) now
      = ({ db with requests := (assignResultDb db r d now).requests },
         ((assignResultDb db r d now).requests.filter
           (fun row => row.id = r)).head?) := by
    unfold updateTransportRequestStatus assignResultDb
    simp [hne]
  unfold assignDriverRoute
  rw [if_neg (by simp [hadmin])]
  have hcas := assignCascade_bids_eq d now r
    ({ db with requests := (assignResultDb db r d now).requests })
    (by simpa using hids)
  rw [foldl_assignBidStep_bids] at hcas
  simp only [hupd, foldl_assignBidStep_bids, Except.ok.injEq, Prod.mk.injEq]
  constructor
  · show DB.mk _ _ _ = assignResultDb db r d now
    unfold assignResultDb
    simp only [DB.mk.injEq]
    refine ⟨trivial, ?_, trivial⟩
    simpa [assignResultDb] using hcas
  · trivial

/-- Net effect of a successful reassign on the store. -/
def reassignResultDb (db : DB) (r now : Nat) : DB :=
  { requests := db.requests.map (fun row =>
      if row.id = r then
        { row with status := "pending", assignedDriverId := none
                   updatedAt := now }
      else row)
    bids := db.bids.map (fun b =>
      if b.requestId = r then
        { b with status := "rejected", updatedAt := now }
      else b)
    gps := db.gps }

theorem reassignTransportRequest_eq (db : DB) (r now : Nat) :
    reassignTransportRequest db r now
      = (reassignResultDb db r now,
         ((reassignResultDb db r now).requests.filter
           (fun row => row.id = r)).head?) := rfl

/-- Net effect of a successful status update (no driver argument) on the
store. -/
def statusResultDb (db : DB) (r : Nat) (status : String) (now : Nat) : DB :=
  { db with requests := db.requests.map (fun row =>
      if row.id = r then { row with status := status, updatedAt := now }
      else row) }

theorem updateTransportRequestStatus_none_eq (db : DB) (r : Nat)
    (status : String) (now : Nat) :
    updateTransportRequestStatus db r status none now
      = (statusResultDb db r status now,
         ((statusResultDb db r status now).requests.filter
           (fun row => row.id = r)).head?) := by
  unfold updateTransportRequestStatus statusResultDb
  simp

end MyTransporter

namespace MyTransporter

/-! ### Concrete data (the spec's §8 scenario: request R1, bids B1/B2) -/

def clientU : User := ⟨10, "c@x", "h", none, none, "client", 0, 0⟩
def adminU : User := ⟨99, "a@x", "h", none, none, "admin", 0, 0⟩
def driverU : User := ⟨3, "d3@x", "h", none, none, "driver", 0, 0⟩

def reqR1 : TransportRequest :=
  { id := 1, clientId := 10, pickupLocation := "A", deliveryLocation := "B"
    pickupDate := 1, deliveryDate := 2, itemDescription := "boxes"
    weight := "10", dimensions := "1x1", budget := "500", status := "pending"
    assignedDriverId := none, createdAt := 0, updatedAt := 0 }

def bidB1 : Bid :=
  { id := 1, requestId := 1, driverId := 1, amount := "450", message := none
    estimatedDelivery := 3, status := "pending", createdAt := 1, updatedAt := 1 }

def bidB2 : Bid :=
  { id := 2, requestId := 1, driverId := 2, amount := "480", message := none
    estimatedDelivery := 3, status := "pending", createdAt := 2, updatedAt := 2 }

def dbScenario : DB := ⟨[reqR1], [bidB1, bidB2], []⟩

/-! ### Claim C1 -/

/-- **C1.**  For every request `r` with status `pending` and every driver
`d` having a bid on `r`, the admin assign action (`acceptBid`, route
`PATCH /api/transport-requests/:id/assign`) succeeds and results in:
`r.status = "assigned"`, `r.assignedDriverId = d`, every bid matching
`(r, d)` accepted, and every other bid for `r` rejected.  The hypotheses
`hids` and `hd` reflect the schema: bid ids are a serial primary key
(hence distinct) and driver ids are serial (hence nonzero). -/
theorem C1_acceptBid_resolves (db : DB) (admin : User) (r d now : Nat)
    (req₀ : TransportRequest)
    (hadmin : admin.role = "admin")
    (hids : (db.bids.map Bid.id).Nodup)
    (hd : d ≠ 0)
    (hreq : getTransportRequestById db r = some req₀)
    (hpending : req₀.status = "pending")
    (hbid : ∃ b ∈ db.bids, b.requestId = r ∧ b.driverId = d) :
    ∃ db' ret, assignDriverRoute db admin r d now = .ok (db', ret)
      ∧ (∀ row ∈ db'.requests, row.id = r →
          row.status = "assigned" ∧ row.assignedDriverId = some d)
      ∧ (∃ b ∈ db'.bids, b.requestId = r ∧ b.driverId = d ∧ b.status = "accepted")
      ∧ (∀ b ∈ db'.bids, b.requestId = r →
          b.status = if b.driverId = d then "accepted" else "rejected") := by
  refine ⟨assignResultDb db r d now, _,
    assignDriverRoute_eq db admin r d now hadmin hd hids, ?_, ?_, ?_⟩
  · intro row hrow hid
    simp only [assignResultDb] at hrow
    rcases List.mem_map.mp hrow with ⟨r₀, hr₀, rfl⟩
    by_cases h : r₀.id = r
    · simp [h]
    · rw [if_neg h] at hid ⊢
      exact absurd hid h
  · obtain ⟨b, hb, hbr, hbd⟩ := hbid
    simp only [assignResultDb]
    refine ⟨_, List.mem_map_of_mem _ hb, ?_⟩
    simp [hbr, hbd]
  · intro b' hb' hbr'
    simp only [assignResultDb] at hb'
    rcases List.mem_map.mp hb' with ⟨x, hx, rfl⟩
    by_cases hxr : x.requestId = r
    · simp [hxr]
    · rw [if_neg hxr] at hbr' ⊢
      exact absurd hbr' hxr

/-- Witness for C1: the spec's §8 scenario (R1 pending with bids by
drivers 1 and 2; admin accepts driver 1's bid). -/
theorem C1_witness :
    ∃ db' ret, assignDriverRoute dbScenario adminU 1 1 5 = .ok (db', ret)
      ∧ (∀ row ∈ db'.requests, row.id = 1 →
          row.status = "assigned" ∧ row.assignedDriverId = some 1)
      ∧ (∃ b ∈ db'.bids, b.requestId = 1 ∧ b.driverId = 1 ∧ b.status = "accepted")
      ∧ (∀ b ∈ db'.bids, b.requestId = 1 →
          b.status = if b.driverId = 1 then "accepted" else "rejected") :=
  C1_acceptBid_resolves dbScenario adminU 1 1 5 reqR1 (by decide) (by decide)
    (by decide) (by decide) (by decide) (by decide)

end MyTransporter

namespace MyTransporter

/-! ### Claim C6 -/

/-- The §8 scenario after the assignment: R1 assigned to driver 1,
B1 accepted, B2 rejected. -/
def reqR1assigned : TransportRequest :=
  { reqR1 with status := "assigned", assignedDriverId := some 1, updatedAt := 5 }

def bidB1acc : Bid := { bidB1 with status := "accepted", updatedAt := 5 }

def bidB2rej : Bid := { bidB2 with status := "rejected", updatedAt := 5 }

def dbAssigned : DB := ⟨[reqR1assigned], [bidB1acc, bidB2rej], []⟩

/-- **C6.**  `reassign(requestId)` succeeds only when the request's status
is "assigned" or "in_progress" (failing with InvalidTransitionError
otherwise), and on success sets status "pending", clears
`assignedDriverId`, and rejects every bid for the request (including a
previously accepted one). -/
theorem C6_reassign_spec (db : DB) (admin : User) (rid now : Nat)
    (r₀ : TransportRequest)
    (hadmin : admin.role = "admin")
    (hreq : getTransportRequestById db rid = some r₀) :
    (r₀.status ≠ "assigned" ∧ r₀.status ≠ "in_progress" →
      reassignRoute db admin rid now = .error .invalidTransition)
    ∧ (r₀.status = "assigned" ∨ r₀.status = "in_progress" →
      ∃ db' ret, reassignRoute db admin rid now = .ok (db', ret)
        ∧ (∀ row ∈ db'.requests, row.id = rid →
            row.status = "pending" ∧ row.assignedDriverId = none)
        ∧ (∀ b ∈ db'.bids, b.requestId = rid → b.status = "rejected")) := by
  constructor
  · intro h
    unfold reassignRoute
    rw [if_neg (by simp [hadmin])]
    simp only [hreq]
    rw [if_pos h]
  · intro h
    unfold reassignRoute
    rw [if_neg (by simp [hadmin])]
    simp only [hreq]
    rw [if_neg (by tauto)]
    rw [reassignTransportRequest_eq]
    refine ⟨_, _, rfl, ?_, ?_⟩
    · intro row hrow hid
      simp only [reassignResultDb] at hrow
      rcases List.mem_map.mp hrow with ⟨r₁, hr₁, rfl⟩
      by_cases hh : r₁.id = rid
      · simp [hh]
      · rw [if_neg hh] at hid ⊢
        exact absurd hid hh
    · intro b hb hbr
      simp only [reassignResultDb] at hb
      rcases List.mem_map.mp hb with ⟨x, hx, rfl⟩
      by_cases hh : x.requestId = rid
      · simp [hh]
      · rw [if_neg hh] at hbr ⊢
        exact absurd hbr hh

/-- Witness for C6: the §8 continuation scenario — reassigning R1 after
its assignment rejects B1 (previously accepted) and leaves B2 rejected. -/
theorem C6_witness :
    (reqR1assigned.status ≠ "assigned" ∧ reqR1assigned.status ≠ "in_progress" →
      reassignRoute dbAssigned adminU 1 9 = .error .invalidTransition)
    ∧ (reqR1assigned.status = "assigned" ∨ reqR1assigned.status = "in_progress" →
      ∃ db' ret, reassignRoute dbAssigned adminU 1 9 = .ok (db', ret)
        ∧ (∀ row ∈ db'.requests, row.id = 1 →
            row.status = "pending" ∧ row.assignedDriverId = none)
        ∧ (∀ b ∈ db'.bids, b.requestId = 1 → b.status = "rejected")) :=
  C6_reassign_spec dbAssigned adminU 1 9 reqR1assigned (by decide) (by decide)

end MyTransporter

namespace MyTransporter

/-! ### Claim C10 -/

/-- **C10.**  `updateTransportRequestStatus(id, status, assignedDriverId?)`
modifies only `status` and `updatedAt`, plus `assignedDriverId` when a
truthy (present, nonzero) driver argument is passed; with the argument
omitted or zero the stored `assignedDriverId` is untouched; the operation
can never set `assignedDriverId` to null (so moving a request to pending
or cancelled through it never clears the driver); every other field of
every row, and the other tables, are unchanged. -/
theorem C10_updateStatus_frame (db : DB) (id : Nat) (st : String)
    (optD : Option Nat) (now : Nat) :
    ∃ db' ret, updateTransportRequestStatus db id st optD now = (db', ret)
      ∧ db'.bids = db.bids
      ∧ db'.gps = db.gps
      ∧ List.Forall₂ (fun r' r =>
          r'.id = r.id
          ∧ (r.id ≠ id → r' = r)
          ∧ (r.id = id →
              r'.status = st ∧ r'.updatedAt = now
              ∧ r'.clientId = r.clientId
              ∧ r'.pickupLocation = r.pickupLocation
              ∧ r'.deliveryLocation = r.deliveryLocation
              ∧ r'.pickupDate = r.pickupDate
              ∧ r'.deliveryDate = r.deliveryDate
              ∧ r'.itemDescription = r.itemDescription
              ∧ r'.weight = r.weight
              ∧ r'.dimensions = r.dimensions
              ∧ r'.budget = r.budget
              ∧ r'.createdAt = r.createdAt
              ∧ ((optD = none ∨ optD = some 0) →
                  r'.assignedDriverId = r.assignedDriverId)
              ∧ (∀ d, optD = some d → d ≠ 0 → r'.assignedDriverId = some d)
              ∧ (r'.assignedDriverId = none → r.assignedDriverId = none)))
        db'.requests db.requests := by
  refine ⟨_, _, rfl, rfl, rfl, ?_⟩
  show List.Forall₂ _ (db.requests.map _) db.requests
  rw [List.forall₂_map_left_iff]
  rw [List.forall₂_same]
  intro r hr
  by_cases h : r.id = id
  · refine ⟨by simp [h], fun hne => absurd h hne, fun _ => ?_⟩
    rw [if_pos h]
    match optD with
    | none => simp
    | some 0 => simp
    | some (d + 1) =>
      refine ⟨rfl, rfl, rfl, rfl, rfl, rfl, rfl, rfl, rfl, rfl, rfl, rfl,
        ?_, ?_, ?_⟩
      · rintro (h1 | h1) <;> simp at h1
      · intro d' hd' hdne
        simp only [Option.some.injEq] at hd'
        subst hd'
        simp
      · intro hnone
        simp at hnone
  · refine ⟨by simp [h], fun _ => by simp [h], fun he => absurd he h⟩

/-- Witness for C10: a status-only move of R1 to "cancelled" with driver
argument zero leaves the stored driver untouched. -/
theorem C10_witness :
    ∃ db' ret, updateTransportRequestStatus dbAssigned 1 "cancelled" (some 0) 7 = (db', ret)
      ∧ db'.bids = dbAssigned.bids
      ∧ db'.gps = dbAssigned.gps
      ∧ List.Forall₂ (fun r' r =>
          r'.id = r.id
          ∧ (r.id ≠ 1 → r' = r)
          ∧ (r.id = 1 →
              r'.status = "cancelled" ∧ r'.updatedAt = 7
              ∧ r'.clientId = r.clientId
              ∧ r'.pickupLocation = r.pickupLocation
              ∧ r'.deliveryLocation = r.deliveryLocation
              ∧ r'.pickupDate = r.pickupDate
              ∧ r'.deliveryDate = r.deliveryDate
              ∧ r'.itemDescription = r.itemDescription
              ∧ r'.weight = r.weight
              ∧ r'.dimensions = r.dimensions
              ∧ r'.budget = r.budget
              ∧ r'.createdAt = r.createdAt
              ∧ ((some 0 = (none : Option Nat) ∨ some 0 = some 0) →
                  r'.assignedDriverId = r.assignedDriverId)
              ∧ (∀ d, some 0 = some d → d ≠ 0 → r'.assignedDriverId = some d)
              ∧ (r'.assignedDriverId = none → r.assignedDriverId = none)))
        db'.requests dbAssigned.requests :=
  C10_updateStatus_frame dbAssigned 1 "cancelled" (some 0) 7

end MyTransporter

namespace MyTransporter

/-! ### Claim C8 -/

/-- **C8.**  For every viewer with role "driver", both TransportRequest
reads — the list (`GET /api/transport-requests`) and the single-request
read (`GET /api/transport-requests/:id`) — return views whose budget is
absent (`{ ...request, budget: undefined }` in the code). -/
theorem C8_driver_never_sees_budget (db : DB) (user : User) (rid : Nat)
    (hdriver : user.role = "driver") :
    (∃ vs, listRequestsRoute db user = .ok vs ∧ ∀ v ∈ vs, v.budget = none)
    ∧ (∀ v, getRequestRoute db user rid = .ok v → v.budget = none) := by
  constructor
  · refine ⟨((getTransportRequests db).filter
        (fun r => r.status = "pending")).map driverView, ?_, ?_⟩
    · unfold listRequestsRoute
      rw [if_neg (by simp [hdriver]), if_pos hdriver]
    · intro v hv
      rcases List.mem_map.mp hv with ⟨r, -, rfl⟩
      rfl
  · intro v hv
    unfold getRequestRoute at hv
    cases hg : getTransportRequestById db rid with
    | none => rw [hg] at hv; cases hv
    | some r =>
      rw [hg] at hv
      simp only [hdriver] at hv
      rw [if_neg (by simp)] at hv
      rw [if_pos trivial] at hv
      cases hv
      rfl

/-- Witness for C8: driver 3 reading the store that holds R1. -/
theorem C8_witness :
    (∃ vs, listRequestsRoute dbScenario driverU = .ok vs ∧ ∀ v ∈ vs, v.budget = none)
    ∧ (∀ v, getRequestRoute dbScenario driverU 1 = .ok v → v.budget = none) :=
  C8_driver_never_sees_budget dbScenario driverU 1 (by decide)

end MyTransporter

namespace MyTransporter

/-! ### Claim C9 -/

theorem head?_take_one {α : Type} (l : List α) : (l.take 1).head? = l.head? := by
  cases l <;> rfl

/-- **C9.**  For every request with at least one GpsTracking row,
`getLatestForRequest` returns a row of that request carrying the maximum
timestamp among its rows, and it equals the first element of
`getHistoryForRequest`, which returns exactly that request's rows ordered
newest-first by timestamp. -/
theorem C9_gps_latest_history (db : DB) (rid : Nat)
    (hex : ∃ g ∈ db.gps, g.requestId = rid) :
    getLatestGpsTrackingForRequest db rid = (getGpsTrackingForRequest db rid).head?
    ∧ (∃ g, getLatestGpsTrackingForRequest db rid = some g
        ∧ g.requestId = rid
        ∧ ∀ g' ∈ db.gps, g'.requestId = rid → g'.timestamp ≤ g.timestamp)
    ∧ (getGpsTrackingForRequest db rid).Perm
        (db.gps.filter (fun g => g.requestId = rid))
    ∧ List.Sorted (byDescKey GpsTracking.timestamp) (getGpsTrackingForRequest db rid) := by
  have hperm := List.perm_insertionSort (byDescKey GpsTracking.timestamp)
    (db.gps.filter (fun g => g.requestId = rid))
  have hsort := List.sorted_insertionSort (byDescKey GpsTracking.timestamp)
    (db.gps.filter (fun g => g.requestId = rid))
  refine ⟨?_, ?_, hperm, hsort⟩
  · unfold getLatestGpsTrackingForRequest getGpsTrackingForRequest
    exact head?_take_one _
  · obtain ⟨g, hg, hgr⟩ := hex
    have hgf : g ∈ db.gps.filter (fun g => g.requestId = rid) :=
      List.mem_filter.mpr ⟨hg, by simp [hgr]⟩
    have hmem : g ∈ List.insertionSort (byDescKey GpsTracking.timestamp)
        (db.gps.filter (fun g => g.requestId = rid)) := hperm.mem_iff.mpr hgf
    cases hS : List.insertionSort (byDescKey GpsTracking.timestamp)
        (db.gps.filter (fun g => g.requestId = rid)) with
    | nil => rw [hS] at hmem; cases hmem
    | cons g₀ tl =>
      refine ⟨g₀, ?_, ?_, ?_⟩
      · unfold getLatestGpsTrackingForRequest sortByDesc
        rw [hS]
        rfl
      · have hmem₀ : g₀ ∈ List.insertionSort (byDescKey GpsTracking.timestamp)
            (db.gps.filter (fun g => g.requestId = rid)) :=
          hS ▸ List.mem_cons_self g₀ tl
        have := List.mem_filter.mp (hperm.subset hmem₀)
        simpa using this.2
      · intro g' hg' hgr'
        have hgf' : g' ∈ db.gps.filter (fun g => g.requestId = rid) :=
          List.mem_filter.mpr ⟨hg', by simp [hgr']⟩
        have hmem' : g' ∈ List.insertionSort (byDescKey GpsTracking.timestamp)
            (db.gps.filter (fun g => g.requestId = rid)) := hperm.mem_iff.mpr hgf'
        rw [hS] at hmem'
        rcases List.mem_cons.mp hmem' with rfl | htl
        · exact le_refl _
        · rw [hS] at hsort
          exact (List.sorted_cons.mp hsort).1 g' htl

/-- Concrete GPS data for the C9 witness: two samples for request 1 with
timestamps 10 and 20. -/
def gpsG1 : GpsTracking :=
  ⟨1, 1, 1, "1.0", "2.0", none, none, none, none, "en_route", 10⟩

def gpsG2 : GpsTracking :=
  ⟨2, 1, 1, "1.5", "2.5", none, none, none, none, "picked_up", 20⟩

def dbGps : DB := ⟨[reqR1assigned], [], [gpsG1, gpsG2]⟩

/-- Witness for C9 at the two-sample store. -/
theorem C9_witness :
    getLatestGpsTrackingForRequest dbGps 1 = (getGpsTrackingForRequest dbGps 1).head?
    ∧ (∃ g, getLatestGpsTrackingForRequest dbGps 1 = some g
        ∧ g.requestId = 1
        ∧ ∀ g' ∈ dbGps.gps, g'.requestId = 1 → g'.timestamp ≤ g.timestamp)
    ∧ (getGpsTrackingForRequest dbGps 1).Perm
        (dbGps.gps.filter (fun g => g.requestId = 1))
    ∧ List.Sorted (byDescKey GpsTracking.timestamp) (getGpsTrackingForRequest dbGps 1) :=
  C9_gps_latest_history dbGps 1 (by decide)

end MyTransporter

namespace MyTransporter

/-! ### Claim C7 -/

/-- The spec's §4.1 transition table, written from the spec's words (for
comparison against the implementation): pending→assigned,
assigned→in_progress, in_progress→completed,
assigned/in_progress→cancelled, assigned/in_progress→pending. -/
def specAllowedTransition (cur new : String) : Bool :=
  (cur == "pending" && new == "assigned")
  || (cur == "assigned" &&
        (new == "in_progress" || new == "cancelled" || new == "pending"))
  || (cur == "in_progress" &&
        (new == "completed" || new == "cancelled" || new == "pending"))

/-- A completed request, for exercising illegal transitions. -/
def reqCompleted : TransportRequest :=
  { reqR1 with status := "completed", assignedDriverId := some 1 }

def dbCompleted : DB := ⟨[reqCompleted], [], []⟩

/-- Counterexample to C7: `completed → pending` is not in the spec's
transition table, yet the status route applies it successfully instead of
failing with InvalidTransitionError — the route checks only that the new
status string is one of the five statuses, never the current status. -/
theorem C7_counterexample :
    specAllowedTransition "completed" "pending" = false
    ∧ (updateStatusRoute dbCompleted adminU 1 "pending" 7).isOk = true
    ∧ updateStatusRoute dbCompleted adminU 1 "pending" 7 ≠ .error .invalidTransition := by
  refine ⟨rfl, rfl, ?_⟩
  intro h
  cases h

/-- **C7 (amended).**  `updateStatus` fails with a validation error when
the new status string is not one of the five statuses, fails with
NotFoundError when the request does not exist, and otherwise succeeds for
*every* current status — it performs no transition check and never raises
InvalidTransitionError — setting the status and updating `updatedAt`. -/
theorem C7_amended_updateStatus (db : DB) (user : User) (rid : Nat)
    (st : String) (now : Nat)
    (hadmin : user.role = "admin") :
    (st ∉ validStatuses →
      updateStatusRoute db user rid st now = .error .validation)
    ∧ (st ∈ validStatuses → getTransportRequestById db rid = none →
      updateStatusRoute db user rid st now = .error .notFound)
    ∧ (st ∈ validStatuses → ∀ r₀, getTransportRequestById db rid = some r₀ →
      ∃ db' ret, updateStatusRoute db user rid st now = .ok (db', ret)
        ∧ (∀ row ∈ db'.requests, row.id = rid →
            row.status = st ∧ row.updatedAt = now)
        ∧ (∀ row ∈ db'.requests, row.id ≠ rid →
            row ∈ db.requests)) := by
  refine ⟨?_, ?_, ?_⟩
  · intro hst
    unfold updateStatusRoute
    rw [if_neg (by simp [hadmin]), if_pos hst]
  · intro hst hnone
    unfold updateStatusRoute
    rw [if_neg (by simp [hadmin]), if_neg (by simpa using hst)]
    simp only [hnone]
  · intro hst r₀ hsome
    unfold updateStatusRoute
    rw [if_neg (by simp [hadmin]), if_neg (by simpa using hst)]
    simp only [hsome]
    rw [updateTransportRequestStatus_none_eq]
    refine ⟨_, _, rfl, ?_, ?_⟩
    · intro row hrow hid
      simp only [statusResultDb] at hrow
      rcases List.mem_map.mp hrow with ⟨r₁, hr₁, rfl⟩
      by_cases hh : r₁.id = rid
      · simp [hh]
      · rw [if_neg hh] at hid ⊢
        exact absurd hid hh
    · intro row hrow hid
      simp only [statusResultDb] at hrow
      rcases List.mem_map.mp hrow with ⟨r₁, hr₁, rfl⟩
      by_cases hh : r₁.id = rid
      · rw [if_pos hh] at hid
        exact absurd hh hid
      · rw [if_neg hh]
        exact hr₁

/-- Witness for the amended C7: the completed request moved to "pending"
succeeds with `updatedAt` refreshed. -/
theorem C7_witness :
    ("pending" ∉ validStatuses →
      updateStatusRoute dbCompleted adminU 1 "pending" 7 = .error .validation)
    ∧ ("pending" ∈ validStatuses → getTransportRequestById dbCompleted 1 = none →
      updateStatusRoute dbCompleted adminU 1 "pending" 7 = .error .notFound)
    ∧ ("pending" ∈ validStatuses → ∀ r₀, getTransportRequestById dbCompleted 1 = some r₀ →
      ∃ db' ret, updateStatusRoute dbCompleted adminU 1 "pending" 7 = .ok (db', ret)
        ∧ (∀ row ∈ db'.requests, row.id = 1 →
            row.status = "pending" ∧ row.updatedAt = 7)
        ∧ (∀ row ∈ db'.requests, row.id ≠ 1 →
            row ∈ dbCompleted.requests)) :=
  C7_amended_updateStatus dbCompleted adminU 1 "pending" 7 (by decide)

/-! ### Claim C2 -/

/-- The assign route's write sequence cut off after `k` primitive writes:
write 1 is the request UPDATE, writes 2… are the per-bid UPDATEs of the
cascade loop, in snapshot order.  The code wraps these `await`ed writes in
no transaction, so a failure between writes leaves exactly such a prefix
state visible. -/
def assignDriverUpTo (db : DB) (rid d now k : Nat) : DB :=
  if k = 0 then db
  else
    let db1 := (updateTransportRequestStatus db rid "assigned" (some d) now).1
    ((getBidsForRequest db1 rid).take (k - 1)).foldl (assignBidStep d now) db1

/-- Running the prefix to completion is exactly the assign route. -/
theorem assignDriverUpTo_complete (db : DB) (admin : User) (rid d now : Nat)
    (hadmin : admin.role = "admin") :
    assignDriverRoute db admin rid d now
      = .ok (assignDriverUpTo db rid d now
              ((getBidsForRequest
                  (updateTransportRequestStatus db rid "assigned" (some d) now).1
                  rid).length + 1),
             (updateTransportRequestStatus db rid "assigned" (some d) now).2) := by
  unfold assignDriverRoute assignDriverUpTo
  rw [if_neg (by simp [hadmin])]
  rw [if_neg (Nat.succ_ne_zero _)]
  simp only [Nat.add_sub_cancel, List.take_length]

/-- **C2 (failing execution).**  On the §8 scenario (R1 pending, bids
B1/B2), stopping `acceptBid(R1, driver 1)` after two of its three writes
(the request UPDATE and the first bid UPDATE of the loop) leaves the
request assigned while driver 1's bid for it is still pending — the
partial state the claim says is never visible.  The code issues the
writes sequentially with no transaction, so a mid-loop failure exposes
exactly this state. -/
theorem C2_midway_state_visible :
    (∀ r ∈ (assignDriverUpTo dbScenario 1 1 5 2).requests,
      r.status = "assigned" ∧ r.assignedDriverId = some 1)
    ∧ (∃ b ∈ (assignDriverUpTo dbScenario 1 1 5 2).bids,
        b.requestId = 1 ∧ b.status = "pending")
    ∧ 2 < (getBidsForRequest
            (updateTransportRequestStatus dbScenario 1 "assigned" (some 1) 5).1
            1).length + 1 := by
  decide

/-! ### Claim C4 -/

/-- The bid driver 3 submits against the already-assigned R1. -/
def lateBidInput : NewBidInput := ⟨1, "470", none, 4⟩

/-- The row `POST /api/bids` creates for it. -/
def lateBidRow : Bid :=
  { id := 3, requestId := 1, driverId := 3, amount := "470", message := none
    estimatedDelivery := 4, status := "pending", createdAt := 6, updatedAt := 6 }

/-- **C4 (failing execution).**  R1 has status "assigned", yet driver 3's
`submitBid` against it succeeds and creates a pending bid: the route
checks only that the caller is a driver and never reads the target
request's status, so no ForbiddenError is raised. -/
theorem C4_bid_on_closed_request_succeeds :
    (∀ r ∈ dbAssigned.requests, r.id = 1 → r.status = "assigned")
    ∧ submitBidRoute dbAssigned driverU lateBidInput 6
        = .ok (⟨dbAssigned.requests, dbAssigned.bids ++ [lateBidRow], []⟩, lateBidRow)
    ∧ lateBidRow.status = "pending" := by
  refine ⟨by decide, rfl, rfl⟩

end MyTransporter

namespace MyTransporter

/-! ### Reachability by the implemented operations -/

/-- One successful mutating operation, exactly as the routes implement it
(error responses leave the store untouched). -/
inductive Step : DB → DB → Prop where
  | create (db : DB) (user : User) (input : NewRequestInput) (now : Nat)
      (db' : DB) (ret : TransportRequest)
      (h : createRequestRoute db user input now = .ok (db', ret)) : Step db db'
  | bid (db : DB) (user : User) (input : NewBidInput) (now : Nat)
      (db' : DB) (ret : Bid)
      (h : submitBidRoute db user input now = .ok (db', ret)) : Step db db'
  | assign (db : DB) (user : User) (rid d now : Nat)
      (db' : DB) (ret : Option TransportRequest)
      (h : assignDriverRoute db user rid d now = .ok (db', ret)) : Step db db'
  | setStatus (db : DB) (user : User) (rid : Nat) (st : String) (now : Nat)
      (db' : DB) (ret : Option TransportRequest)
      (h : updateStatusRoute db user rid st now = .ok (db', ret)) : Step db db'
  | reassign (db : DB) (user : User) (rid now : Nat)
      (db' : DB) (ret : Option TransportRequest)
      (h : reassignRoute db user rid now = .ok (db', ret)) : Step db db'

/-- States reachable from the empty store by the implemented operations. -/
def Reachable (db : DB) : Prop := Relation.ReflTransGen Step DB.empty db

/-! Inversion lemmas for the success cases of each route. -/

theorem createRequestRoute_inv {db : DB} {user : User} {input : NewRequestInput}
    {now : Nat} {db' : DB} {ret : TransportRequest}
    (h : createRequestRoute db user input now = .ok (db', ret)) :
    db'.requests = db.requests ++ [ret] ∧ db'.bids = db.bids ∧ db'.gps = db.gps
      ∧ ret.status = "pending" ∧ ret.assignedDriverId = none := by
  unfold createRequestRoute at h
  split at h
  · cases h
  · have heq := Except.ok.inj h
    have hdb : db' = (createTransportRequest db input user.id now).1 :=
      (congrArg Prod.fst heq).symm
    have hret : ret = (createTransportRequest db input user.id now).2 :=
      (congrArg Prod.snd heq).symm
    subst hdb
    subst hret
    exact ⟨rfl, rfl, rfl, rfl, rfl⟩

theorem submitBidRoute_inv {db : DB} {user : User} {input : NewBidInput}
    {now : Nat} {db' : DB} {ret : Bid}
    (h : submitBidRoute db user input now = .ok (db', ret)) :
    db'.requests = db.requests ∧ db'.bids = db.bids ++ [ret] ∧ db'.gps = db.gps
      ∧ ret.status = "pending" ∧ ret.requestId = input.requestId
      ∧ ret.id = freshId (db.bids.map Bid.id) := by
  unfold submitBidRoute at h
  split at h
  · cases h
  · have heq := Except.ok.inj h
    have hdb : db' = (createBid db input user.id now).1 :=
      (congrArg Prod.fst heq).symm
    have hret : ret = (createBid db input user.id now).2 :=
      (congrArg Prod.snd heq).symm
    subst hdb
    subst hret
    exact ⟨rfl, rfl, rfl, rfl, rfl, rfl⟩

theorem assignDriverRoute_inv {db : DB} {user : User} {rid d now : Nat}
    {db' : DB} {ret : Option TransportRequest}
    (h : assignDriverRoute db user rid d now = .ok (db', ret)) :
    db' = (getBidsForRequest
            (updateTransportRequestStatus db rid "assigned" (some d) now).1
            rid).foldl (assignBidStep d now)
          (updateTransportRequestStatus db rid "assigned" (some d) now).1 := by
  unfold assignDriverRoute at h
  split at h
  · cases h
  · exact (congrArg Prod.fst (Except.ok.inj h)).symm

theorem updateStatusRoute_inv {db : DB} {user : User} {rid : Nat}
    {st : String} {now : Nat} {db' : DB} {ret : Option TransportRequest}
    (h : updateStatusRoute db user rid st now = .ok (db', ret)) :
    db' = statusResultDb db rid st now := by
  unfold updateStatusRoute at h
  split at h
  · cases h
  · split at h
    · cases h
    · split at h
      · cases h
      · rw [updateTransportRequestStatus_none_eq] at h
        exact (congrArg Prod.fst (Except.ok.inj h)).symm

theorem reassignRoute_inv {db : DB} {user : User} {rid now : Nat}
    {db' : DB} {ret : Option TransportRequest}
    (h : reassignRoute db user rid now = .ok (db', ret)) :
    db' = reassignResultDb db rid now := by
  unfold reassignRoute at h
  split at h
  · cases h
  · split at h
    · cases h
    · split at h
      · cases h
      · rw [reassignTransportRequest_eq] at h
        exact (congrArg Prod.fst (Except.ok.inj h)).symm

/-- The requests component of a successful assign: every row with the
target id is set to "assigned" with the driver recorded (when nonzero). -/
theorem assignDriverRoute_requests {db : DB} {user : User} {rid d now : Nat}
    {db' : DB} {ret : Option TransportRequest}
    (h : assignDriverRoute db user rid d now = .ok (db', ret)) :
    db'.requests = db.requests.map (fun r =>
      if r.id = rid then
        { r with status := "assigned", updatedAt := now
                 assignedDriverId := if (d != 0) then some d else r.assignedDriverId }
      else r) := by
  rw [assignDriverRoute_inv h, foldl_assignBidStep_bids]
  rfl

/-- A successful assign leaves the multiset of bid ids untouched. -/
theorem assignDriverRoute_bid_ids {db : DB} {user : User} {rid d now : Nat}
    {db' : DB} {ret : Option TransportRequest}
    (h : assignDriverRoute db user rid d now = .ok (db', ret)) :
    db'.bids.map Bid.id = db.bids.map Bid.id := by
  rw [assignDriverRoute_inv h, foldl_assignBidStep_bids]
  show (List.map _ _).map Bid.id = _
  rw [List.map_map]
  exact List.map_congr_left (fun x _ => foldl_applyBid_id d now _ x)

/-- The bids component of a successful assign, assuming distinct bid ids. -/
theorem assignDriverRoute_bids {db : DB} {user : User} {rid d now : Nat}
    {db' : DB} {ret : Option TransportRequest}
    (hids : (db.bids.map Bid.id).Nodup)
    (h : assignDriverRoute db user rid d now = .ok (db', ret)) :
    db'.bids = db.bids.map (fun x =>
      if x.requestId = rid then
        { x with status := if x.driverId = d then "accepted" else "rejected"
                 updatedAt := now }
      else x) := by
  rw [assignDriverRoute_inv h]
  exact assignCascade_bids_eq d now rid
    (updateTransportRequestStatus db rid "assigned" (some d) now).1
    (by simpa using hids)

end MyTransporter

namespace MyTransporter

/-! ### Claim C3 -/

/-- C3's invariant: `assignedDriverId` is non-null iff the status is
assigned, in_progress or completed. -/
def driverIffStatus (db : DB) : Prop :=
  ∀ r ∈ db.requests,
    r.assignedDriverId ≠ none ↔
      (r.status = "assigned" ∨ r.status = "in_progress" ∨ r.status = "completed")

/-- The §8 scenario's create input. -/
def createInputC : NewRequestInput := ⟨"A", "B", 1, 2, "boxes", "10", "1x1", "500"⟩

def dbAfterCreate : DB := ⟨[reqR1], [], []⟩

/-- R1 after a bare status update to "assigned": no driver recorded. -/
def reqBadAssigned : TransportRequest :=
  { reqR1 with status := "assigned", updatedAt := 1 }

def dbBad : DB := ⟨[reqBadAssigned], [], []⟩

theorem reachable_dbAfterCreate : Reachable dbAfterCreate :=
  Relation.ReflTransGen.single
    (Step.create DB.empty clientU createInputC 0 dbAfterCreate reqR1 (by rfl))

/-- `dbBad` is reachable: client 10 creates R1, then the admin moves it to
"assigned" through the status route, which never touches the driver. -/
theorem reachable_dbBad : Reachable dbBad :=
  Relation.ReflTransGen.tail reachable_dbAfterCreate
    (Step.setStatus dbAfterCreate adminU 1 "assigned" 1 dbBad
      (some reqBadAssigned) (by rfl))

/-- Counterexample to C3 as stated: the two-step run
create → updateStatus(1, "assigned") reaches a store whose only request is
"assigned" with `assignedDriverId = null`, because the status route
performs no transition check and cannot set a driver. -/
theorem C3_counterexample : ¬ (∀ db, Reachable db → driverIffStatus db) := by
  intro h
  exact absurd (h dbBad reachable_dbBad) (by unfold driverIffStatus; decide)

/-- The operations of C3 with the status-update endpoint removed and the
assign action restricted to a truthy (nonzero) driver id — the restriction
the counterexamples force. -/
inductive StepA : DB → DB → Prop where
  | create (db : DB) (user : User) (input : NewRequestInput) (now : Nat)
      (db' : DB) (ret : TransportRequest)
      (h : createRequestRoute db user input now = .ok (db', ret)) : StepA db db'
  | bid (db : DB) (user : User) (input : NewBidInput) (now : Nat)
      (db' : DB) (ret : Bid)
      (h : submitBidRoute db user input now = .ok (db', ret)) : StepA db db'
  | assign (db : DB) (user : User) (rid d now : Nat)
      (db' : DB) (ret : Option TransportRequest) (hd : d ≠ 0)
      (h : assignDriverRoute db user rid d now = .ok (db', ret)) : StepA db db'
  | reassign (db : DB) (user : User) (rid now : Nat)
      (db' : DB) (ret : Option TransportRequest)
      (h : reassignRoute db user rid now = .ok (db', ret)) : StepA db db'

def ReachableA (db : DB) : Prop := Relation.ReflTransGen StepA DB.empty db

theorem stepA_preserves_driverIff {db db' : DB} (hs : StepA db db')
    (ih : driverIffStatus db) : driverIffStatus db' := by
  cases hs with
  | create user input now db2 ret h =>
    obtain ⟨hreqs, -, -, hst, hdrv⟩ := createRequestRoute_inv h
    intro r hr
    rw [hreqs] at hr
    rcases List.mem_append.mp hr with hmem | hmem
    · exact ih r hmem
    · rw [List.mem_singleton] at hmem
      subst hmem
      simp [hst, hdrv]
  | bid user input now db2 ret h =>
    obtain ⟨hreqs, -, -, -, -, -⟩ := submitBidRoute_inv h
    intro r hr
    rw [hreqs] at hr
    exact ih r hr
  | assign user rid d now db2 ret hd h =>
    have hreqs := assignDriverRoute_requests h
    intro r hr
    rw [hreqs] at hr
    rcases List.mem_map.mp hr with ⟨r₀, hr₀, rfl⟩
    by_cases hid : r₀.id = rid
    · have hbne : (d != 0) = true := bne_iff_ne.mpr hd
      simp [hid, hbne]
    · rw [if_neg hid]
      exact ih r₀ hr₀
  | reassign user rid now db2 ret h =>
    have hdb := reassignRoute_inv h
    subst hdb
    intro r hr
    simp only [reassignResultDb] at hr
    rcases List.mem_map.mp hr with ⟨r₀, hr₀, rfl⟩
    by_cases hid : r₀.id = rid
    · simp [hid]
    · rw [if_neg hid]
      exact ih r₀ hr₀

/-- **C3 (amended).**  The invariant `assignedDriverId ≠ null ↔ status ∈
{assigned, in_progress, completed}` holds in every state reachable by
createRequest, acceptBid/assign with a truthy (nonzero) driver id, and
reassign.  It does not survive the status-update endpoint
(`C3_counterexample`), which changes the status without touching the
driver. -/
theorem C3_amended_invariant (db : DB) (h : ReachableA db) : driverIffStatus db := by
  induction h with
  | refl => intro r hr; cases hr
  | tail hab hbc ih => exact stepA_preserves_driverIff hbc ih

/-- Witness for the amended C3: the single-create run. -/
theorem C3_witness : driverIffStatus dbAfterCreate :=
  C3_amended_invariant dbAfterCreate
    (Relation.ReflTransGen.single
      (StepA.create DB.empty clientU createInputC 0 dbAfterCreate reqR1 (by rfl)))

end MyTransporter

namespace MyTransporter

/-! ### Claim C5 -/

/-- C5's invariant: every assigned request has exactly one accepted bid and
all of its other bids rejected (none pending). -/
def assignedBidsResolved (db : DB) : Prop :=
  ∀ r ∈ db.requests, r.status = "assigned" →
    (db.bids.filter (fun b => b.requestId = r.id ∧ b.status = "accepted")).length = 1
    ∧ ∀ b ∈ db.bids, b.requestId = r.id →
        b.status = "accepted" ∨ b.status = "rejected"

/-- Counterexample to C5 as stated: the run behind `reachable_dbBad`
(create, then a bare status update to "assigned") reaches a store whose
only request is assigned while no bid for it exists at all — zero accepted
bids instead of exactly one. -/
theorem C5_counterexample : ¬ (∀ db, Reachable db → assignedBidsResolved db) := by
  intro h
  exact absurd (h dbBad reachable_dbBad) (by unfold assignedBidsResolved; decide)

theorem le_foldr_max {x : Nat} {ids : List Nat} (hx : x ∈ ids) :
    x ≤ ids.foldr max 0 := by
  induction ids with
  | nil => cases hx
  | cons a l ih =>
    rcases List.mem_cons.mp hx with rfl | h
    · exact Nat.le_max_left _ _
    · exact Nat.le_trans (ih h) (Nat.le_max_right _ _)

theorem freshId_not_mem (ids : List Nat) : freshId ids ∉ ids := by
  intro h
  have h2 := le_foldr_max h
  unfold freshId at h2
  omega

theorem nodup_ids_append {l : List Bid} {b : Bid}
    (h : (l.map Bid.id).Nodup) (hb : b.id ∉ l.map Bid.id) :
    ((l ++ [b]).map Bid.id).Nodup := by
  rw [List.map_append, List.nodup_append]
  refine ⟨h, List.nodup_singleton _, ?_⟩
  intro a ha hmem
  rw [List.map_singleton, List.mem_singleton] at hmem
  subst hmem
  exact hb ha

/-- Filtering a mapped bid list equals filtering the original when the map
does not change whether the predicate holds and fixes every selected
element. -/
theorem filter_pred_map (l : List Bid) (f : Bid → Bid) (p : Bid → Bool)
    (hp : ∀ x ∈ l, p (f x) = p x) (hfix : ∀ x ∈ l, p x = true → f x = x) :
    (l.map f).filter p = l.filter p := by
  induction l with
  | nil => rfl
  | cons x l ih =>
    have hx := hp x (List.mem_cons_self x l)
    have hfx := hfix x (List.mem_cons_self x l)
    have ih2 := ih (fun y hy => hp y (List.mem_cons_of_mem x hy))
      (fun y hy => hfix y (List.mem_cons_of_mem x hy))
    rw [List.map_cons, List.filter_cons, List.filter_cons, hx]
    by_cases hpx : p x = true
    · simp only [if_pos hpx, hfx hpx, ih2]
    · simp only [if_neg hpx, ih2]

/-- Counting the accepted bids of the assign cascade's target: exactly the
chosen driver's bids on that request. -/
theorem count_accepted_assign (l : List Bid) (rid d now : Nat) :
    ((l.map (fun x =>
        if x.requestId = rid then
          { x with status := if x.driverId = d then "accepted" else "rejected"
                   updatedAt := now }
        else x)).filter
      (fun b => b.requestId = rid ∧ b.status = "accepted")).length
    = (l.filter (fun b => b.requestId = rid ∧ b.driverId = d)).length := by
  rw [List.filter_map, List.length_map]
  congr 1
  apply List.filter_congr
  intro x hx
  simp only [Function.comp_apply]
  apply decide_eq_decide.mpr
  by_cases hxr : x.requestId = rid
  · by_cases hxd : x.driverId = d <;> simp [hxr, hxd]
  · simp [hxr]

end MyTransporter

namespace MyTransporter

/-- The operations of C5 restricted to their intended use — bids are
submitted only against pending requests, assignment picks a driver with
exactly one bid on the request, and the status route is not used to move
a request into "assigned" — the restrictions the counterexamples force. -/
inductive StepB : DB → DB → Prop where
  | create (db : DB) (user : User) (input : NewRequestInput) (now : Nat)
      (db' : DB) (ret : TransportRequest)
      (h : createRequestRoute db user input now = .ok (db', ret)) : StepB db db'
  | bid (db : DB) (user : User) (input : NewBidInput) (now : Nat)
      (db' : DB) (ret : Bid)
      (hpend : ∀ r ∈ db.requests, r.id = input.requestId → r.status = "pending")
      (h : submitBidRoute db user input now = .ok (db', ret)) : StepB db db'
  | assign (db : DB) (user : User) (rid d now : Nat)
      (db' : DB) (ret : Option TransportRequest)
      (huniq : (db.bids.filter
        (fun b => b.requestId = rid ∧ b.driverId = d)).length = 1)
      (h : assignDriverRoute db user rid d now = .ok (db', ret)) : StepB db db'
  | setStatus (db : DB) (user : User) (rid : Nat) (st : String) (now : Nat)
      (db' : DB) (ret : Option TransportRequest)
      (hst : st ≠ "assigned")
      (h : updateStatusRoute db user rid st now = .ok (db', ret)) : StepB db db'
  | reassign (db : DB) (user : User) (rid now : Nat)
      (db' : DB) (ret : Option TransportRequest)
      (h : reassignRoute db user rid now = .ok (db', ret)) : StepB db db'

def ReachableB (db : DB) : Prop := Relation.ReflTransGen StepB DB.empty db

/-- The inductive invariant: distinct bid ids (the serial primary key)
plus C5's property. -/
def bidsConsistent (db : DB) : Prop :=
  (db.bids.map Bid.id).Nodup ∧ assignedBidsResolved db

theorem stepB_preserves {db db' : DB} (hs : StepB db db')
    (ih : bidsConsistent db) : bidsConsistent db' := by
  obtain ⟨hnd, hres⟩ := ih
  cases hs with
  | create user input now db2 ret h =>
    obtain ⟨hreqs, hbids, -, hst, -⟩ := createRequestRoute_inv h
    refine ⟨by rw [hbids]; exact hnd, ?_⟩
    intro r hr ha
    rw [hreqs] at hr
    rw [hbids]
    rcases List.mem_append.mp hr with hmem | hmem
    · exact hres r hmem ha
    · rw [List.mem_singleton] at hmem
      subst hmem
      rw [hst] at ha
      exact absurd ha (by decide)
  | bid user input now db2 ret hpend h =>
    obtain ⟨hreqs, hbids, -, hbst, hbreq, hbid⟩ := submitBidRoute_inv h
    constructor
    · rw [hbids]
      apply nodup_ids_append hnd
      rw [hbid]
      exact freshId_not_mem _
    · intro r hr ha
      rw [hreqs] at hr
      have hrid : input.requestId ≠ r.id := by
        intro he
        have hp := hpend r hr he.symm
        rw [hp] at ha
        exact absurd ha (by decide)
      constructor
      · rw [hbids, List.filter_append]
        have hsing : ([ret].filter
            (fun b => b.requestId = r.id ∧ b.status = "accepted")) = [] := by
          simp [hbreq, hrid]
        rw [hsing, List.append_nil]
        exact (hres r hr ha).1
      · intro b hb hbr
        rw [hbids] at hb
        rcases List.mem_append.mp hb with hmem | hmem
        · exact (hres r hr ha).2 b hmem hbr
        · rw [List.mem_singleton] at hmem
          subst hmem
          rw [hbreq] at hbr
          exact absurd hbr hrid
  | assign user rid d now db2 ret huniq h =>
    have hbids := assignDriverRoute_bids hnd h
    have hreqs := assignDriverRoute_requests h
    have hidseq := assignDriverRoute_bid_ids h
    refine ⟨by rw [hidseq]; exact hnd, ?_⟩
    intro r hr ha
    rw [hreqs] at hr
    rcases List.mem_map.mp hr with ⟨r₀, hr₀, heq⟩
    by_cases hid : r₀.id = rid
    · have hrid : r.id = rid := by
        rw [← heq, if_pos hid]
        exact hid
      constructor
      · rw [hrid, hbids, count_accepted_assign]
        exact huniq
      · intro b hb hbr
        rw [hrid] at hbr
        rw [hbids] at hb
        rcases List.mem_map.mp hb with ⟨x, hx, hbe⟩
        by_cases hxr : x.requestId = rid
        · rw [← hbe, if_pos hxr]
          by_cases hxd : x.driverId = d <;> simp [hxd]
        · rw [← hbe, if_neg hxr] at hbr ⊢
          exact absurd hbr hxr
    · have hreq2 : r = r₀ := by rw [← heq, if_neg hid]
      subst hreq2
      have hrr := hres r hr₀ ha
      constructor
      · rw [hbids]
        rw [filter_pred_map]
        · exact hrr.1
        · intro x hx
          have hne : rid ≠ r.id := fun hh => hid hh.symm
          by_cases hxr : x.requestId = rid
          · apply decide_eq_decide.mpr
            simp [hxr, hne]
          · simp [hxr]
        · intro x hx hpx
          rw [decide_eq_true_eq] at hpx
          rw [if_neg]
          intro hxr
          exact hid (by rw [← hpx.1, hxr])
      · intro b hb hbr
        rw [hbids] at hb
        rcases List.mem_map.mp hb with ⟨x, hx, hbe⟩
        by_cases hxr : x.requestId = rid
        · rw [← hbe, if_pos hxr]
          by_cases hxd : x.driverId = d <;> simp [hxd]
        · rw [← hbe, if_neg hxr] at hbr ⊢
          exact hrr.2 x hx hbr
  | setStatus user rid st now db2 ret hst h =>
    have hdb := updateStatusRoute_inv h
    subst hdb
    refine ⟨hnd, ?_⟩
    intro r hr ha
    simp only [statusResultDb] at hr
    rcases List.mem_map.mp hr with ⟨r₀, hr₀, heq⟩
    by_cases hid : r₀.id = rid
    · rw [← heq, if_pos hid] at ha
      exact absurd ha hst
    · have hreq2 : r = r₀ := by rw [← heq, if_neg hid]
      subst hreq2
      exact hres r hr₀ ha
  | reassign user rid now db2 ret h =>
    have hdb := reassignRoute_inv h
    subst hdb
    constructor
    · show ((db.bids.map _).map Bid.id).Nodup
      rw [List.map_map]
      have hcomp : (Bid.id ∘ fun b =>
          if b.requestId = rid then
            { b with status := "rejected", updatedAt := now }
          else b) = Bid.id := by
        funext x
        by_cases hxr : x.requestId = rid <;> simp [Function.comp, hxr]
      rw [hcomp]
      exact hnd
    · intro r hr ha
      simp only [reassignResultDb] at hr
      rcases List.mem_map.mp hr with ⟨r₀, hr₀, heq⟩
      by_cases hid : r₀.id = rid
      · rw [← heq, if_pos hid] at ha
        have hpa : ("pending" : String) ≠ "assigned" := by decide
        exact absurd ha hpa
      · have hreq2 : r = r₀ := by rw [← heq, if_neg hid]
        subst hreq2
        have hrr := hres r hr₀ ha
        constructor
        · show ((db.bids.map _).filter _).length = 1
          rw [filter_pred_map]
          · exact hrr.1
          · intro x hx
            have hne : rid ≠ r.id := fun hh => hid hh.symm
            by_cases hxr : x.requestId = rid
            · apply decide_eq_decide.mpr
              simp [hxr, hne]
            · simp [hxr]
          · intro x hx hpx
            rw [decide_eq_true_eq] at hpx
            rw [if_neg]
            intro hxr
            exact hid (by rw [← hpx.1, hxr])
        · intro b hb hbr
          rcases List.mem_map.mp hb with ⟨x, hx, hbe⟩
          by_cases hxr : x.requestId = rid
          · rw [← hbe, if_pos hxr]
            simp
          · rw [← hbe, if_neg hxr] at hbr ⊢
            exact hrr.2 x hx hbr

theorem reachableB_bidsConsistent (db : DB) (h : ReachableB db) :
    bidsConsistent db := by
  induction h with
  | refl => exact ⟨List.nodup_nil, fun r hr => absurd hr (List.not_mem_nil r)⟩
  | tail hab hbc ih => exact stepB_preserves hbc ih

/-- **C5 (amended).**  In every state reachable when the operations are
used as intended — bids submitted only against pending requests,
assignment of a driver holding exactly one bid on the request, and no
bare status update into "assigned" — every request with status "assigned"
has exactly one accepted bid and all its other bids rejected.  The
unrestricted operations violate this (`C5_counterexample`). -/
theorem C5_amended_invariant (db : DB) (h : ReachableB db) :
    assignedBidsResolved db :=
  (reachableB_bidsConsistent db h).2

/-- Witness for the amended C5: the single-create run. -/
theorem C5_witness : assignedBidsResolved dbAfterCreate :=
  C5_amended_invariant dbAfterCreate
    (Relation.ReflTransGen.single
      (StepB.create DB.empty clientU createInputC 0 dbAfterCreate reqR1 (by rfl)))

end MyTransporter
